import Mathlib

/-!
Shallow embedding of the minivm-asm text emitter.

Buffers are modelled as lists of characters; the Rust types Asm, Label,
SubLabel, LabelImpl of asm.rs and the builder layer of builder.rs become
Lean structures with explicit state passing. Byte lengths of the ASCII
literal paddings coincide with character counts, so Rust byte spans are
modelled as character spans.
-/

namespace MinivmAsm

abbrev Str := List Char

def lit (s : String) : Str := s.data

def INDENTED_LINE_START : Str := lit "\n    "

def BLOCK_END : Str := lit "\nend"

def ENTRY_POINT : Str := lit "@__entry\n    r0 <- call main\n    exit"

structure LabelImpl where
  name_span : Nat × Nat
  buf : Str
deriving DecidableEq

def LabelImpl.mk_new (buf : Str) (span : Nat × Nat) : LabelImpl :=
  { name_span := span, buf := buf }

def LabelImpl.name (l : LabelImpl) : Str :=
  (l.buf.drop l.name_span.1).take (l.name_span.2 - l.name_span.1)

def LabelImpl.push_line (l : LabelImpl) (line : Str) : LabelImpl :=
  { l with buf := l.buf ++ INDENTED_LINE_START ++ line }

def LabelImpl.finish (l : LabelImpl) : Str := l.buf

structure SubLabel where
  inner : LabelImpl
deriving DecidableEq

def SubLabel.format_name (label_name sub_label_name : Str) : Str :=
  lit "@" ++ label_name ++ lit "." ++ sub_label_name

def SubLabel.mk_new (label name : Str) : SubLabel :=
  { inner := LabelImpl.mk_new (SubLabel.format_name label name)
      (1, 1 + label.length + 1 + name.length) }

def SubLabel.finish (sl : SubLabel) : Str := sl.inner.finish

def SubLabel.name (sl : SubLabel) : Str := sl.inner.name

def SubLabel.push_line (sl : SubLabel) (line : Str) : SubLabel :=
  { sl with inner := sl.inner.push_line line }

structure Label where
  inner : LabelImpl
  sub_labels : List SubLabel
deriving DecidableEq

def Label.format_name (label_name : Str) : Str :=
  lit "func " ++ label_name

def Label.mk_new (name : Str) : Label :=
  { inner := LabelImpl.mk_new (Label.format_name name)
      ((lit "func ").length, (lit "func ").length + name.length)
    sub_labels := [] }

def Label.push_sub_label (l : Label) (sub_label : SubLabel) : Label :=
  { l with sub_labels := l.sub_labels ++ [sub_label] }

def Label.finish (l : Label) : Str :=
  (l.sub_labels.foldl (fun buf sl => buf ++ lit "\n" ++ sl.finish) l.inner.finish)
    ++ BLOCK_END

def Label.name (l : Label) : Str := l.inner.name

def Label.push_line (l : Label) (line : Str) : Label :=
  { l with inner := l.inner.push_line line }

structure Asm where
  main : Label
  buf : Str
deriving DecidableEq

def Asm.mk_new : Asm :=
  { main := Label.mk_new (lit "main"), buf := ENTRY_POINT }

def Asm.push_label (a : Asm) (label : Label) : Asm :=
  { a with buf := a.buf ++ lit "\n\n" ++ label.finish }

def Asm.finish (a : Asm) : Str :=
  a.buf ++ lit "\n\n" ++ a.main.finish

/-- Joins a list of strings with a separator between consecutive elements. -/
def sepJoin (sep : Str) : List Str → Str
  | [] => []
  | [x] => x
  | x :: y :: xs => x ++ sep ++ sepJoin sep (y :: xs)

theorem sepJoin_cons (sep x : Str) (xs : List Str) (h : xs ≠ []) :
    sepJoin sep (x :: xs) = x ++ sep ++ sepJoin sep xs := by
  cases xs with
  | nil => exact absurd rfl h
  | cons y ys => rfl

theorem asm_foldl_push_finish (ls : List Label) (a : Asm) :
    (ls.foldl Asm.push_label a).finish
      = a.buf ++ lit "\n\n"
          ++ sepJoin (lit "\n\n") (ls.map Label.finish ++ [a.main.finish]) := by
  induction ls generalizing a with
  | nil => simp [sepJoin, Asm.finish]
  | cons l ls ih =>
      simp only [List.foldl_cons, List.map_cons, List.cons_append]
      rw [ih]
      rw [sepJoin_cons (lit "\n\n") l.finish
        (List.map Label.finish ls ++ [a.main.finish]) (by simp)]
      simp [Asm.push_label, List.append_assoc]

/-- Claim C1: a Module built by pushing finished Labels and then finishing
serializes as the fixed entry prologue, a blank line, the pushed labels in
push order separated by blank lines, and the entry label text last. -/
theorem asm_finish_layout (ls : List Label) :
    (ls.foldl Asm.push_label Asm.mk_new).finish
      = ENTRY_POINT ++ lit "\n\n"
          ++ sepJoin (lit "\n\n")
              (ls.map Label.finish ++ [(Label.mk_new (lit "main")).finish]) := by
  rw [asm_foldl_push_finish]
  rfl

theorem labelImpl_foldl_push_line (lines : List Str) (li : LabelImpl) :
    lines.foldl LabelImpl.push_line li
      = { li with
          buf := li.buf ++ (lines.map (fun l => INDENTED_LINE_START ++ l)).flatten } := by
  induction lines generalizing li with
  | nil => simp
  | cons l ls ih =>
      simp only [List.foldl_cons, List.map_cons, List.flatten_cons]
      rw [ih]
      simp [LabelImpl.push_line, List.append_assoc]

theorem label_foldl_push_line (lines : List Str) (lb : Label) :
    lines.foldl Label.push_line lb
      = { lb with inner := lines.foldl LabelImpl.push_line lb.inner } := by
  induction lines generalizing lb with
  | nil => simp
  | cons l ls ih =>
      simp only [List.foldl_cons]
      rw [ih]
      rfl

theorem label_foldl_push_sub_label (subs : List SubLabel) (lb : Label) :
    subs.foldl Label.push_sub_label lb
      = { lb with sub_labels := lb.sub_labels ++ subs } := by
  induction subs generalizing lb with
  | nil => simp
  | cons sl subs ih =>
      simp only [List.foldl_cons]
      rw [ih]
      simp [Label.push_sub_label]

theorem foldl_append_sub (subs : List SubLabel) (start : Str) :
    subs.foldl (fun buf sl => buf ++ lit "\n" ++ sl.finish) start
      = start ++ (subs.map (fun sl => lit "\n" ++ sl.finish)).flatten := by
  induction subs generalizing start with
  | nil => simp
  | cons sl subs ih =>
      simp only [List.foldl_cons, List.map_cons, List.flatten_cons]
      rw [ih]
      simp [List.append_assoc]

theorem subLabel_foldl_push_line (lines : List Str) (sl : SubLabel) :
    lines.foldl SubLabel.push_line sl
      = { sl with inner := lines.foldl LabelImpl.push_line sl.inner } := by
  induction lines generalizing sl with
  | nil => simp
  | cons l ls ih =>
      simp only [List.foldl_cons]
      rw [ih]
      rfl

/-- Claim C2: a Label created with name n, with lines appended and finished
Sub-Labels pushed, finishes as the name line, each line prefixed by a newline
and four spaces in call order, each sub-label text prefixed by a newline, and
the terminator; a Sub-Label finishes the same way minus the terminator, with
the dotted name line. -/
theorem label_finish_layout (n p s : Str) (lines subLines : List Str)
    (subs : List SubLabel) :
    (Label.finish
        (subs.foldl Label.push_sub_label
          (lines.foldl Label.push_line (Label.mk_new n)))
      = lit "func " ++ n
          ++ (lines.map (fun l => INDENTED_LINE_START ++ l)).flatten
          ++ (subs.map (fun sl => lit "\n" ++ sl.finish)).flatten
          ++ BLOCK_END)
    ∧ (SubLabel.finish (subLines.foldl SubLabel.push_line (SubLabel.mk_new p s))
      = lit "@" ++ p ++ lit "." ++ s
          ++ (subLines.map (fun l => INDENTED_LINE_START ++ l)).flatten) := by
  constructor
  · rw [label_foldl_push_line, label_foldl_push_sub_label]
    simp only [Label.finish, foldl_append_sub]
    rw [labelImpl_foldl_push_line]
    simp [Label.mk_new, LabelImpl.mk_new, LabelImpl.finish, Label.format_name,
      List.append_assoc]
  · rw [subLabel_foldl_push_line]
    simp only [SubLabel.finish]
    rw [labelImpl_foldl_push_line]
    simp [SubLabel.mk_new, LabelImpl.mk_new, LabelImpl.finish,
      SubLabel.format_name, List.append_assoc]

/-- Claim C8: the cached name span, computed arithmetically at construction
from the fixed literal padding lengths, reads back exactly the label name
(and the dotted parent.sub name for sub-labels), and stays correct after any
sequence of appended lines. -/
theorem name_span_correct (n p s : Str) (lines subLines : List Str) :
    ((lines.foldl Label.push_line (Label.mk_new n)).name = n)
    ∧ ((subLines.foldl SubLabel.push_line (SubLabel.mk_new p s)).name
        = p ++ lit "." ++ s) := by
  constructor
  · rw [label_foldl_push_line]
    simp only [Label.name, LabelImpl.name]
    rw [labelImpl_foldl_push_line]
    simp only [Label.mk_new, LabelImpl.mk_new, Label.format_name]
    rw [List.append_assoc]
    have hd : ((lit "func ") ++
        (n ++ (List.map (fun l => INDENTED_LINE_START ++ l) lines).flatten)).drop
          (lit "func ").length
        = n ++ (List.map (fun l => INDENTED_LINE_START ++ l) lines).flatten :=
      List.drop_left _ _
    simp only [hd, Nat.add_sub_cancel_left]
    exact List.take_left n _
  · rw [subLabel_foldl_push_line]
    simp only [SubLabel.name, LabelImpl.name]
    rw [labelImpl_foldl_push_line]
    simp only [SubLabel.mk_new, LabelImpl.mk_new, SubLabel.format_name]
    have hbuf : (lit "@" ++ p ++ lit "." ++ s)
          ++ (List.map (fun l => INDENTED_LINE_START ++ l) subLines).flatten
        = '@' :: ((p ++ lit "." ++ s)
          ++ (List.map (fun l => INDENTED_LINE_START ++ l) subLines).flatten) := rfl
    rw [hbuf]
    have hlen2 : (1 : Nat) + p.length + 1 + s.length - 1
        = (p ++ lit "." ++ s).length := by
      have hdot : (lit ".").length = 1 := rfl
      simp only [List.length_append, hdot]
      omega
    simp only [List.drop_succ_cons, List.drop_zero, hlen2]
    exact List.take_left _ _

abbrev Reg := Nat

abbrev Lbl := Str

def natDec (n : Nat) : Str := (Nat.repr n).data

def intDec (i : Int) : Str := (Int.repr i).data

structure SubLabelBuilder where
  lbl : SubLabel
deriving DecidableEq

def SubLabelBuilder.mk_new (label name : Str) : SubLabelBuilder :=
  { lbl := SubLabel.mk_new label name }

def SubLabelBuilder.finish (b : SubLabelBuilder) : SubLabel := b.lbl

def SubLabelBuilder.write_line (b : SubLabelBuilder) (line : Str) : SubLabelBuilder :=
  { b with lbl := b.lbl.push_line line }

structure LabelBuilder where
  lbl : Label
  unfinished : Option SubLabelBuilder
deriving DecidableEq

def LabelBuilder.mk_new (name : Str) : LabelBuilder :=
  { lbl := Label.mk_new name, unfinished := none }

def LabelBuilder.take_unfinished (b : LabelBuilder) : LabelBuilder :=
  match b.unfinished with
  | none => b
  | some prev => { lbl := b.lbl.push_sub_label prev.finish, unfinished := none }

def LabelBuilder.build_sub_label (b : LabelBuilder) (name : Str) : LabelBuilder :=
  let b2 := b.take_unfinished
  { b2 with unfinished := some (SubLabelBuilder.mk_new b2.lbl.name name) }

def LabelBuilder.sub_label (b : LabelBuilder) (name : Str)
    (f : SubLabelBuilder → SubLabelBuilder) : LabelBuilder :=
  let b2 := b.take_unfinished
  { b2 with
    lbl := b2.lbl.push_sub_label
      ((f (SubLabelBuilder.mk_new b2.lbl.name name)).finish) }

def LabelBuilder.finish (b : LabelBuilder) : Label := b.take_unfinished.lbl

def LabelBuilder.write_line (b : LabelBuilder) (line : Str) : LabelBuilder :=
  { b with lbl := b.lbl.push_line line }

structure AsmBuilder where
  asm : Asm
  main : LabelBuilder
  built_main : Bool
  unfinished : Option LabelBuilder
deriving DecidableEq

def AsmBuilder.mk_new : AsmBuilder :=
  { asm := Asm.mk_new, main := LabelBuilder.mk_new (lit "main"),
    built_main := false, unfinished := none }

def AsmBuilder.build_main_check (b : AsmBuilder) : Option AsmBuilder :=
  if b.built_main then none else some { b with built_main := true }

def AsmBuilder.take_unfinished (b : AsmBuilder) : AsmBuilder :=
  match b.unfinished with
  | none => b
  | some prev => { b with asm := b.asm.push_label prev.finish, unfinished := none }

def AsmBuilder.build_main (b : AsmBuilder) : Option AsmBuilder :=
  b.build_main_check

def AsmBuilder.main_callback (b : AsmBuilder) (f : LabelBuilder → LabelBuilder) :
    Option AsmBuilder :=
  (b.build_main_check).map (fun b2 => { b2 with main := f b2.main })

def AsmBuilder.build_label (b : AsmBuilder) (name : Str) : AsmBuilder :=
  let b2 := b.take_unfinished
  { b2 with unfinished := some (LabelBuilder.mk_new name) }

def AsmBuilder.label (b : AsmBuilder) (name : Str)
    (f : LabelBuilder → LabelBuilder) : AsmBuilder :=
  let b2 := b.take_unfinished
  { b2 with asm := b2.asm.push_label ((f (LabelBuilder.mk_new name)).finish) }

def AsmBuilder.finish (b : AsmBuilder) : Asm :=
  let b2 := b.take_unfinished
  { b2.asm with main := b2.main.finish }

structure DropBomb where
  armed : Bool
deriving DecidableEq

/-- Modelled from the spec: the drop bomb carried by BuilderGuard comes from
an external dependency that is not part of this repository; per the spec it
is armed at construction, disarmed only by defuse, and dropping it while
armed aborts with a diagnostic. -/
def DropBomb.mk_new : DropBomb := { armed := true }

def DropBomb.defuse (_b : DropBomb) : DropBomb := { armed := false }

structure BuilderGuard (T : Type) where
  inner : T
  finished : DropBomb

def BuilderGuard.mk_new {T : Type} (inner : T) : BuilderGuard T :=
  { inner := inner, finished := DropBomb.mk_new }

def BuilderGuard.finish {T : Type} (g : BuilderGuard T) : BuilderGuard T :=
  { g with finished := g.finished.defuse }

def BuilderGuard.drop_aborts {T : Type} (g : BuilderGuard T) : Bool := g.finished.armed

def BuilderGuard.write_line (g : BuilderGuard LabelBuilder) (line : Str) :
    BuilderGuard LabelBuilder :=
  { g with inner := g.inner.write_line line }

def LabelBuilder.register_move (b : LabelBuilder) (fromReg toReg : Reg) :
    LabelBuilder :=
  b.write_line (natDec toReg ++ lit " <- reg r" ++ natDec fromReg)

def LabelBuilder.integer (b : LabelBuilder) (value : Int) (toReg : Reg) :
    LabelBuilder :=
  b.write_line (lit "r" ++ natDec toReg ++ lit " <- int " ++ intDec value)

def LabelBuilder.branch_boolean (b : LabelBuilder) (reg : Reg)
    (label_true label_false : Lbl) : LabelBuilder :=
  b.write_line (lit "bb r" ++ natDec reg ++ lit " " ++ label_false
    ++ lit " " ++ label_true)

def LabelBuilder.branch_equal (b : LabelBuilder) (reg1 reg2 : Reg)
    (label_true label_false : Lbl) : LabelBuilder :=
  b.write_line (lit "beq r" ++ natDec reg1 ++ lit " r" ++ natDec reg2
    ++ lit " " ++ label_false ++ lit " " ++ label_true)

def LabelBuilder.branch_less_than (b : LabelBuilder) (reg1 reg2 : Reg)
    (label_true label_false : Lbl) : LabelBuilder :=
  b.write_line (lit "blt r" ++ natDec reg1 ++ lit " r" ++ natDec reg2
    ++ lit " " ++ label_false ++ lit " " ++ label_true)

def LabelBuilder.string (b : LabelBuilder) (text : Str) (toReg : Reg) :
    LabelBuilder :=
  b.write_line (lit "r" ++ natDec toReg ++ lit " <- str :" ++ text)

def LabelBuilder.char (b : LabelBuilder) (ch : Nat) (toReg : Reg) : LabelBuilder :=
  b.integer (Int.ofNat ch) toReg

/-- Claim C3: the branch emitters take the true target before the false
target from the caller, but the emitted line always places the false target
before the true target; nothing else of the builder changes. -/
theorem branch_emitters_false_before_true (b : LabelBuilder) (r r1 r2 : Reg)
    (t f : Lbl) :
    (b.branch_boolean r t f
      = { b with lbl := { b.lbl with inner := { b.lbl.inner with
          buf := b.lbl.inner.buf ++ INDENTED_LINE_START
            ++ (lit "bb r" ++ natDec r ++ lit " " ++ f ++ lit " " ++ t) } } })
    ∧ (b.branch_equal r1 r2 t f
      = { b with lbl := { b.lbl with inner := { b.lbl.inner with
          buf := b.lbl.inner.buf ++ INDENTED_LINE_START
            ++ (lit "beq r" ++ natDec r1 ++ lit " r" ++ natDec r2
              ++ lit " " ++ f ++ lit " " ++ t) } } })
    ∧ (b.branch_less_than r1 r2 t f
      = { b with lbl := { b.lbl with inner := { b.lbl.inner with
          buf := b.lbl.inner.buf ++ INDENTED_LINE_START
            ++ (lit "blt r" ++ natDec r1 ++ lit " r" ++ natDec r2
              ++ lit " " ++ f ++ lit " " ++ t) } } }) :=
  ⟨rfl, rfl, rfl⟩

/-- Claim C4, evaluation at the failing input: register_move with source 1
and destination 0 emits the line with no register prefix on the destination,
so the emitted line differs from the catalog form of RegisterMove. -/
theorem register_move_unprefixed_destination :
    ((LabelBuilder.mk_new (lit "f")).register_move 1 0).lbl.inner.buf
      = lit "func f" ++ INDENTED_LINE_START ++ lit "0 <- reg r1"
    ∧ lit "0 <- reg r1" ≠ lit "r0 <- reg r1" := by
  constructor
  · decide
  · decide

theorem asmBuilder_take_unfinished_idem (b : AsmBuilder) :
    b.take_unfinished.take_unfinished = b.take_unfinished := by
  cases hb : b.unfinished <;> simp [AsmBuilder.take_unfinished, hb]

theorem labelBuilder_take_unfinished_idem (b : LabelBuilder) :
    b.take_unfinished.take_unfinished = b.take_unfinished := by
  cases hb : b.unfinished <;> simp [LabelBuilder.take_unfinished, hb]

/-- Claim C5: opening a new child while one is pending, in either the guard
form or the callback form, yields the same builder state as first finalizing
and absorbing the pending child (take_unfinished) and then opening the new
child, for both module-level and label-level parents. -/
theorem open_child_equals_finalize_then_open (b : AsmBuilder)
    (lb : LabelBuilder) (name : Str) (f : LabelBuilder → LabelBuilder)
    (g : SubLabelBuilder → SubLabelBuilder) :
    (b.build_label name = (b.take_unfinished).build_label name)
    ∧ (b.label name f = (b.take_unfinished).label name f)
    ∧ (lb.build_sub_label name = (lb.take_unfinished).build_sub_label name)
    ∧ (lb.sub_label name g = (lb.take_unfinished).sub_label name g) := by
  refine ⟨?_, ?_, ?_, ?_⟩
  · simp [AsmBuilder.build_label, asmBuilder_take_unfinished_idem]
  · simp [AsmBuilder.label, asmBuilder_take_unfinished_idem]
  · simp [LabelBuilder.build_sub_label, labelBuilder_take_unfinished_idem]
  · simp [LabelBuilder.sub_label, labelBuilder_take_unfinished_idem]

/-- Claim C6: on a builder whose entry point has not been built, either style
of building the entry point succeeds, and after either style succeeds, a
second invocation in either style fails fatally. -/
theorem build_main_exactly_once (b : AsmBuilder)
    (f g : LabelBuilder → LabelBuilder) (h : b.built_main = false) :
    (b.build_main).isSome
    ∧ (b.main_callback f).isSome
    ∧ (∀ b1, b.build_main = some b1
        → b1.build_main = none ∧ b1.main_callback g = none)
    ∧ (∀ b1, b.main_callback f = some b1
        → b1.build_main = none ∧ b1.main_callback g = none) := by
  refine ⟨?_, ?_, ?_, ?_⟩
  · simp [AsmBuilder.build_main, AsmBuilder.build_main_check, h]
  · simp [AsmBuilder.main_callback, AsmBuilder.build_main_check, h]
  · intro b1 hb1
    simp only [AsmBuilder.build_main, AsmBuilder.build_main_check, h,
      if_false, Option.some.injEq, Bool.false_eq_true] at hb1
    subst hb1
    constructor
    · simp [AsmBuilder.build_main, AsmBuilder.build_main_check]
    · simp [AsmBuilder.main_callback, AsmBuilder.build_main_check]
  · intro b1 hb1
    simp only [AsmBuilder.main_callback, AsmBuilder.build_main_check, h,
      if_false, Option.map_some', Option.some.injEq, Bool.false_eq_true] at hb1
    subst hb1
    constructor
    · simp [AsmBuilder.build_main, AsmBuilder.build_main_check]
    · simp [AsmBuilder.main_callback, AsmBuilder.build_main_check]

theorem build_main_exactly_once_witness :
    (AsmBuilder.mk_new.build_main).isSome :=
  (build_main_exactly_once AsmBuilder.mk_new id id rfl).1

/-- Claim C7: a freshly constructed guard aborts when dropped, writing lines
through the guard keeps it armed, and a guard on which finish was called
never aborts when dropped. -/
theorem guard_drop_aborts_iff_unfinished (lb : LabelBuilder)
    (g : BuilderGuard LabelBuilder) (line : Str) :
    ((BuilderGuard.mk_new lb).drop_aborts = true)
    ∧ ((g.write_line line).drop_aborts = g.drop_aborts)
    ∧ ((g.finish).drop_aborts = false) :=
  ⟨rfl, rfl, rfl⟩

/-- Claim C9: for any character value below 256, the char helper delegates to
the load-integer emitter at the same register, and the emitted line prints
the character as its decimal integer value. -/
theorem char_delegates_to_integer (b : LabelBuilder) (c : Nat) (toReg : Reg)
    (h : c < 256) :
    (b.char c toReg = b.integer (Int.ofNat c) toReg)
    ∧ (b.char c toReg
      = { b with lbl := { b.lbl with inner := { b.lbl.inner with
          buf := b.lbl.inner.buf ++ INDENTED_LINE_START
            ++ (lit "r" ++ natDec toReg ++ lit " <- int " ++ natDec c) } } }) :=
  ⟨rfl, rfl⟩

theorem char_delegates_to_integer_witness :
    65 < 256
    ∧ ((LabelBuilder.mk_new (lit "m")).char 65 0
      = (LabelBuilder.mk_new (lit "m")).integer (Int.ofNat 65) 0) :=
  ⟨by decide, (char_delegates_to_integer (LabelBuilder.mk_new (lit "m")) 65 0
    (by decide)).1⟩

/-- Claim C10: the load-string emitter appends exactly one line with the text
embedded verbatim after the colon, for every text including ones containing
control characters, and changes nothing else. -/
theorem string_emits_text_verbatim (b : LabelBuilder) (text : Str)
    (toReg : Reg) :
    b.string text toReg
      = { b with lbl := { b.lbl with inner := { b.lbl.inner with
          buf := b.lbl.inner.buf ++ INDENTED_LINE_START
            ++ (lit "r" ++ natDec toReg ++ lit " <- str :" ++ text) } } } :=
  rfl

end MinivmAsm
